import Mathlib

/-!
Verification of the frame-geometry and recognition pipeline of the
hotwheels-id application.  The numeric code is embedded over ℚ (exact
arithmetic model of the floating-point source); strings are Lean strings.
-/

namespace HotwheelsId

/-- A source-space rectangle, fields named after the source object
`{sx, sy, sw, sh}` returned by the geometry functions. -/
structure Rect where
  sx : ℚ
  sy : ℚ
  sw : ℚ
  sh : ℚ
  deriving Repr, DecidableEq

/-- Embedding of `computeCoverCrop(srcW, srcH, dstW, dstH)` from the source:
compares `srcW/srcH` with `dstW/dstH`; if the source is strictly wider it keeps
full height and centers horizontally, otherwise it keeps full width and centers
vertically. -/
def computeCoverCrop (srcW srcH dstW dstH : ℚ) : Rect :=
  let srcRat := srcW / srcH
  let dstRat := dstW / dstH
  if srcRat > dstRat then
    { sh := srcH
      sw := srcH * dstRat
      sx := (srcW - srcH * dstRat) / 2
      sy := 0 }
  else
    { sw := srcW
      sh := srcW / dstRat
      sx := 0
      sy := (srcH - srcW / dstRat) / 2 }

/-- Embedding of the constant `GUIDE_WIDTH = 100`. -/
def GUIDE_WIDTH : ℚ := 100

/-- Embedding of the constant `GUIDE_HEIGHT = 40`. -/
def GUIDE_HEIGHT : ℚ := 40

/-- Embedding of the constant `OCR_INTERVAL = 750`. -/
def OCR_INTERVAL : ℚ := 750

/-- Embedding of `computeOCRCrop(frame)` from the source, with the frame and
canvas dimensions made explicit arguments: maps the centered guide box from
canvas space into source-frame space through the display cover crop. -/
def computeOCRCrop (frameW frameH canvasW canvasH : ℚ) : Rect :=
  let displayCrop := computeCoverCrop frameW frameH canvasW canvasH
  let scaleX := displayCrop.sw / canvasW
  let scaleY := displayCrop.sh / canvasH
  let boxX := (canvasW - GUIDE_WIDTH) / 2
  let boxY := (canvasH - GUIDE_HEIGHT) / 2
  { sx := displayCrop.sx + boxX * scaleX
    sy := displayCrop.sy + boxY * scaleY
    sw := GUIDE_WIDTH * scaleX
    sh := GUIDE_HEIGHT * scaleY }

/-- Embedding of the `HotWheelsEntry` interface. -/
structure HotWheelsEntry where
  Number : String
  Name : String
  Year : String
  Color : String
  deriving Repr, DecidableEq

/-- Embedding of the JS primitive `String.prototype.split` with a one-character
separator, over the character list of the string: `split('-')` on `"a-b"`
yields `["a","b"]`, on `""` yields `[""]`, on `"-"` yields `["",""]`. -/
def jsSplit (sep : Char) : List Char → List (List Char)
  | [] => [[]]
  | x :: xs =>
    if x = sep then [] :: jsSplit sep xs
    else
      match jsSplit sep xs with
      | [] => [[x]]
      | s :: rest => (x :: s) :: rest

/-- Embedding of the JS primitive `String.prototype.trim`: remove leading and
trailing whitespace characters. -/
def jsTrim (l : List Char) : List Char :=
  ((l.dropWhile Char.isWhitespace).reverse.dropWhile Char.isWhitespace).reverse

/-- A character allowed by the character class `[A-Z0-9]` of `CODE_REGEX`. -/
def isCodeChar (c : Char) : Bool :=
  (65 ≤ c.toNat && c.toNat ≤ 90) || (48 ≤ c.toNat && c.toNat ≤ 57)

/-- One segment of `CODE_REGEX`: 3 to 5 characters, all in `[A-Z0-9]`. -/
def segOk (l : List Char) : Bool :=
  3 ≤ l.length && l.length ≤ 5 && l.all isCodeChar

/-- Embedding of `CODE_REGEX.test`: the regex
`/^[A-Z0-9]{3,5}-[A-Z0-9]{3,5}$/` matches exactly the strings made of two
`[A-Z0-9]` segments of length 3 to 5 joined by a single hyphen; since the
character class excludes the hyphen, splitting on the hyphen must yield
exactly two conforming segments. -/
def codeRegexTest (s : String) : Bool :=
  match jsSplit '-' s.toList with
  | [a, b] => segOk a && segOk b
  | _ => false

/-- Embedding of the catalog-resolution steps of `maybeRunOCR`
(lines 209 to 215 of the source): trim the recognized text, test it against
`CODE_REGEX`, take the part before the first hyphen, and return the first
catalog entry whose `Number` the extracted part starts with
(`prefix.startsWith(e.Number)`, i.e. `e.Number` is a leading substring). -/
def resolve (rawText : String) (catalog : List HotWheelsEntry) :
    Option HotWheelsEntry :=
  let text := jsTrim rawText.toList
  if codeRegexTest (String.mk text) then
    let pfx := (jsSplit '-' text).headD []
    catalog.find? (fun e => e.Number.toList.isPrefixOf pfx)
  else
    none

/-- Embedding of the throttle test of `maybeRunOCR` (line 190 of the source):
the gate permits a recognition attempt iff `now - lastOcrTime < OCR_INTERVAL`
fails. -/
def shouldRun (now last interval : ℚ) : Bool :=
  !(decide (now - last < interval))

/-- The gate transition: the decision together with the timestamp it leaves
behind (`lastOcrTime := now` exactly on a permitted attempt). -/
def gateStep (last now interval : ℚ) : Bool × ℚ :=
  if shouldRun now last interval then (true, now) else (false, last)

/-- Embedding of the entry-tracker conditional of `maybeRunOCR`
(lines 217 to 221): replace `currentEntry` and emit exactly when a match is
present and its `Number` differs from the current one (or no current entry
exists). -/
def update (cur : Option HotWheelsEntry) (newEntry : Option HotWheelsEntry) :
    Option HotWheelsEntry × Bool :=
  match newEntry with
  | none => (cur, false)
  | some m =>
    match cur with
    | none => (some m, true)
    | some c => if m.Number ≠ c.Number then (some m, true) else (cur, false)

/-- The mutable state touched by `maybeRunOCR`: `lastOcrTime` and
`currentEntry`. -/
structure OcrState where
  lastOcrTime : ℚ
  currentEntry : Option HotWheelsEntry
  deriving Repr, DecidableEq

/-- Embedding of the state effect of `maybeRunOCR`: `now` is the sampled
clock, `ocrResult` the outcome of the external recognition call (`.error` for
a rejected promise).  If the gate rejects, the state is untouched; otherwise
`lastOcrTime` advances to `now` before the recognition call, and on success
the recognized text is resolved against the catalog and the tracker update
applied.  The embedding models the steady state after worker initialization
(the `if (!worker) return` early exit also leaves the state untouched). -/
def maybeRunOCR (st : OcrState) (now : ℚ) (ocrResult : Except Unit String)
    (catalog : List HotWheelsEntry) : OcrState :=
  if shouldRun now st.lastOcrTime OCR_INTERVAL then
    let st1 : OcrState := { st with lastOcrTime := now }
    match ocrResult with
    | .error _ => st1
    | .ok raw =>
      { st1 with currentEntry := (update st1.currentEntry (resolve raw catalog)).1 }
  else
    st

/-! ### Geometry lemmas -/

/-- Bounds and exact aspect ratio of the cover crop, shared by the theorems
about `computeCoverCrop` and `computeOCRCrop`. -/
theorem coverCrop_bounds_aux (srcW srcH dstW dstH : ℚ)
    (hsW : 0 < srcW) (hsH : 0 < srcH) (hdW : 0 < dstW) (hdH : 0 < dstH) :
    0 ≤ (computeCoverCrop srcW srcH dstW dstH).sx ∧
    0 ≤ (computeCoverCrop srcW srcH dstW dstH).sy ∧
    (computeCoverCrop srcW srcH dstW dstH).sx
      + (computeCoverCrop srcW srcH dstW dstH).sw ≤ srcW ∧
    (computeCoverCrop srcW srcH dstW dstH).sy
      + (computeCoverCrop srcW srcH dstW dstH).sh ≤ srcH ∧
    0 < (computeCoverCrop srcW srcH dstW dstH).sw ∧
    0 < (computeCoverCrop srcW srcH dstW dstH).sh ∧
    (computeCoverCrop srcW srcH dstW dstH).sw
      / (computeCoverCrop srcW srcH dstW dstH).sh = dstW / dstH := by
  have hsH0 : srcH ≠ 0 := ne_of_gt hsH
  have hdW0 : dstW ≠ 0 := ne_of_gt hdW
  have hdH0 : dstH ≠ 0 := ne_of_gt hdH
  have hsW0 : srcW ≠ 0 := ne_of_gt hsW
  simp only [computeCoverCrop]
  split_ifs with h
  · have h' : dstW * srcH < srcW * dstH := (div_lt_div_iff₀ hdH hsH).mp h
    have hsw : srcH * (dstW / dstH) < srcW := by
      rw [← mul_div_assoc, div_lt_iff₀ hdH]
      nlinarith
    have hswpos : 0 < srcH * (dstW / dstH) := mul_pos hsH (div_pos hdW hdH)
    have hratio : srcH * (dstW / dstH) / srcH = dstW / dstH := by
      field_simp
      ring
    exact ⟨by dsimp only; linarith, by dsimp only; linarith,
      by dsimp only; linarith, by dsimp only; linarith,
      by dsimp only; linarith, by dsimp only; linarith,
      by dsimp only; exact hratio⟩
  · push_neg at h
    have h' : srcW * dstH ≤ dstW * srcH := (div_le_div_iff₀ hsH hdH).mp h
    have hsh : srcW / (dstW / dstH) ≤ srcH := by
      rw [div_div_eq_mul_div, div_le_iff₀ hdW]
      nlinarith
    have hshpos : 0 < srcW / (dstW / dstH) := div_pos hsW (div_pos hdW hdH)
    have hratio : srcW / (srcW / (dstW / dstH)) = dstW / dstH := by
      rw [div_div_eq_mul_div, mul_comm, mul_div_assoc, div_self hsW0, mul_one]
    exact ⟨by dsimp only; linarith, by dsimp only; linarith,
      by dsimp only; linarith, by dsimp only; linarith,
      by dsimp only; linarith, by dsimp only; linarith,
      by dsimp only; exact hratio⟩

/-- C1: for positive dimensions the cover crop lies within the source frame
and has exactly the destination aspect ratio (exact arithmetic over ℚ). -/
theorem c1_coverCrop_within_bounds (srcW srcH dstW dstH : ℚ)
    (hsW : 0 < srcW) (hsH : 0 < srcH) (hdW : 0 < dstW) (hdH : 0 < dstH) :
    0 ≤ (computeCoverCrop srcW srcH dstW dstH).sx ∧
    0 ≤ (computeCoverCrop srcW srcH dstW dstH).sy ∧
    (computeCoverCrop srcW srcH dstW dstH).sx
      + (computeCoverCrop srcW srcH dstW dstH).sw ≤ srcW ∧
    (computeCoverCrop srcW srcH dstW dstH).sy
      + (computeCoverCrop srcW srcH dstW dstH).sh ≤ srcH ∧
    (computeCoverCrop srcW srcH dstW dstH).sw
      / (computeCoverCrop srcW srcH dstW dstH).sh = dstW / dstH := by
  obtain ⟨h1, h2, h3, h4, _, _, h7⟩ := coverCrop_bounds_aux srcW srcH dstW dstH hsW hsH hdW hdH
  exact ⟨h1, h2, h3, h4, h7⟩

/-- Witness for C1 at the concrete input (200, 100, 100, 100). -/
theorem c1_coverCrop_within_bounds_witness :
    0 ≤ (computeCoverCrop 200 100 100 100).sx ∧
    0 ≤ (computeCoverCrop 200 100 100 100).sy ∧
    (computeCoverCrop 200 100 100 100).sx
      + (computeCoverCrop 200 100 100 100).sw ≤ 200 ∧
    (computeCoverCrop 200 100 100 100).sy
      + (computeCoverCrop 200 100 100 100).sh ≤ 100 ∧
    (computeCoverCrop 200 100 100 100).sw
      / (computeCoverCrop 200 100 100 100).sh = 100 / 100 :=
  c1_coverCrop_within_bounds 200 100 100 100 (by norm_num) (by norm_num)
    (by norm_num) (by norm_num)

/-- C6: `computeCoverCrop` follows the specified case split; the wider-source
branch is taken exactly when `srcW/srcH > dstW/dstH`, and the degenerate case
of equal ratios takes the else branch. -/
theorem c6_coverCrop_case_split (srcW srcH dstW dstH : ℚ)
    (hsW : 0 < srcW) (hsH : 0 < srcH) (hdW : 0 < dstW) (hdH : 0 < dstH) :
    (srcW / srcH > dstW / dstH →
      computeCoverCrop srcW srcH dstW dstH =
        { sx := (srcW - srcH * (dstW / dstH)) / 2, sy := 0,
          sw := srcH * (dstW / dstH), sh := srcH })
  ∧ (srcW / srcH ≤ dstW / dstH →
      computeCoverCrop srcW srcH dstW dstH =
        { sx := 0, sy := (srcH - srcW / (dstW / dstH)) / 2,
          sw := srcW, sh := srcW / (dstW / dstH) }) := by
  constructor
  · intro h
    simp only [computeCoverCrop]
    rw [if_pos h]
  · intro h
    simp only [computeCoverCrop]
    rw [if_neg (not_lt.mpr h)]

/-- Witness for C6 at the concrete inputs (200, 100, 100, 100) and
(100, 100, 200, 100). -/
theorem c6_coverCrop_case_split_witness :
    computeCoverCrop 200 100 100 100 =
      { sx := (200 - 100 * ((100 : ℚ) / 100)) / 2, sy := 0,
        sw := 100 * ((100 : ℚ) / 100), sh := 100 } ∧
    computeCoverCrop 100 100 200 100 =
      { sx := 0, sy := (100 - 100 / ((200 : ℚ) / 100)) / 2,
        sw := 100, sh := 100 / ((200 : ℚ) / 100) } :=
  ⟨(c6_coverCrop_case_split 200 100 100 100 (by norm_num) (by norm_num)
      (by norm_num) (by norm_num)).1 (by norm_num),
   (c6_coverCrop_case_split 100 100 200 100 (by norm_num) (by norm_num)
      (by norm_num) (by norm_num)).2 (by norm_num)⟩

/-- C7: the OCR crop is the guide box (100 by 40, centered in the canvas)
mapped into source-frame space through the display cover crop, with per-axis
scale factors taken from the display crop. -/
theorem c7_ocrCrop_formula (frameW frameH canvasW canvasH : ℚ)
    (hfW : 0 < frameW) (hfH : 0 < frameH) (hcW : 0 < canvasW) (hcH : 0 < canvasH) :
    computeOCRCrop frameW frameH canvasW canvasH =
      { sx := (computeCoverCrop frameW frameH canvasW canvasH).sx
            + ((canvasW - 100) / 2)
              * ((computeCoverCrop frameW frameH canvasW canvasH).sw / canvasW),
        sy := (computeCoverCrop frameW frameH canvasW canvasH).sy
            + ((canvasH - 40) / 2)
              * ((computeCoverCrop frameW frameH canvasW canvasH).sh / canvasH),
        sw := 100 * ((computeCoverCrop frameW frameH canvasW canvasH).sw / canvasW),
        sh := 40 * ((computeCoverCrop frameW frameH canvasW canvasH).sh / canvasH) } := by
  simp only [computeOCRCrop, GUIDE_WIDTH, GUIDE_HEIGHT]

/-- Witness for C7 at the concrete input (640, 480, 320, 240). -/
theorem c7_ocrCrop_formula_witness :
    computeOCRCrop 640 480 320 240 =
      { sx := (computeCoverCrop 640 480 320 240).sx
            + ((320 - 100) / 2) * ((computeCoverCrop 640 480 320 240).sw / 320),
        sy := (computeCoverCrop 640 480 320 240).sy
            + ((240 - 40) / 2) * ((computeCoverCrop 640 480 320 240).sh / 240),
        sw := 100 * ((computeCoverCrop 640 480 320 240).sw / 320),
        sh := 40 * ((computeCoverCrop 640 480 320 240).sh / 240) } :=
  c7_ocrCrop_formula 640 480 320 240 (by norm_num) (by norm_num) (by norm_num)
    (by norm_num)

/-- C3 counterexample: called with the non-positive dimension `srcW = 0` (the
other dimensions positive), `computeCoverCrop` raises no error and returns the
degenerate rectangle `{sx: 0, sy: 50, sw: 0, sh: 0}`; no `InvalidDimension`
error path exists in the code, whose geometry functions are total. -/
theorem c3_no_dimension_validation_counterexample :
    computeCoverCrop 0 100 100 100 = { sx := 0, sy := 50, sw := 0, sh := 0 } := by
  norm_num [computeCoverCrop]

/-- C3 amended: the geometry functions perform no dimension validation; with a
zero width among the inputs they return (rather than fail on) a degenerate
rectangle computed by the same branch formulas. -/
theorem c3_amended_no_validation (srcH dstW dstH : ℚ)
    (hsH : 0 < srcH) (hdW : 0 < dstW) (hdH : 0 < dstH) :
    computeCoverCrop 0 srcH dstW dstH = { sx := 0, sy := srcH / 2, sw := 0, sh := 0 }
  ∧ computeOCRCrop 0 srcH dstW dstH = { sx := 0, sy := srcH / 2, sw := 0, sh := 0 } := by
  have hr : 0 < dstW / dstH := div_pos hdW hdH
  have hcc : computeCoverCrop 0 srcH dstW dstH =
      { sx := 0, sy := srcH / 2, sw := 0, sh := 0 } := by
    simp only [computeCoverCrop]
    rw [if_neg]
    · simp [hsH.ne']
    · rw [zero_div]
      exact not_lt.mpr (le_of_lt hr)
  refine ⟨hcc, ?_⟩
  simp only [computeOCRCrop, hcc]
  simp

/-- Witness for the amended C3 at the concrete input (0, 100, 100, 100). -/
theorem c3_amended_no_validation_witness :
    computeCoverCrop 0 100 100 100 = { sx := 0, sy := 100 / 2, sw := 0, sh := 0 }
  ∧ computeOCRCrop 0 100 100 100 = { sx := 0, sy := 100 / 2, sw := 0, sh := 0 } :=
  c3_amended_no_validation 100 100 100 (by norm_num) (by norm_num) (by norm_num)

/-- C9: when the guide box fits inside the canvas (canvas at least 100 wide
and 40 tall) and the frame is positive, the OCR crop lies within the frame
bounds (exact arithmetic). -/
theorem c9_ocrCrop_within_bounds (frameW frameH canvasW canvasH : ℚ)
    (hfW : 0 < frameW) (hfH : 0 < frameH)
    (hcW : 100 ≤ canvasW) (hcH : 40 ≤ canvasH) :
    0 ≤ (computeOCRCrop frameW frameH canvasW canvasH).sx ∧
    0 ≤ (computeOCRCrop frameW frameH canvasW canvasH).sy ∧
    (computeOCRCrop frameW frameH canvasW canvasH).sx
      + (computeOCRCrop frameW frameH canvasW canvasH).sw ≤ frameW ∧
    (computeOCRCrop frameW frameH canvasW canvasH).sy
      + (computeOCRCrop frameW frameH canvasW canvasH).sh ≤ frameH := by
  have hcW0 : (0 : ℚ) < canvasW := lt_of_lt_of_le (by norm_num) hcW
  have hcH0 : (0 : ℚ) < canvasH := lt_of_lt_of_le (by norm_num) hcH
  obtain ⟨h1, h2, h3, h4, h5, h6, _⟩ :=
    coverCrop_bounds_aux frameW frameH canvasW canvasH hfW hfH hcW0 hcH0
  simp only [computeOCRCrop, GUIDE_WIDTH, GUIDE_HEIGHT]
  set d := computeCoverCrop frameW frameH canvasW canvasH with hd
  have hsX : 0 ≤ d.sw / canvasW := le_of_lt (div_pos h5 hcW0)
  have hsY : 0 ≤ d.sh / canvasH := le_of_lt (div_pos h6 hcH0)
  have hmX : canvasW * (d.sw / canvasW) = d.sw := by
    field_simp
  have hmY : canvasH * (d.sh / canvasH) = d.sh := by
    field_simp
  have pX : 0 ≤ (canvasW - 100) / 2 * (d.sw / canvasW) :=
    mul_nonneg (by linarith) hsX
  have pY : 0 ≤ (canvasH - 40) / 2 * (d.sh / canvasH) :=
    mul_nonneg (by linarith) hsY
  have keyX : (canvasW - 100) / 2 * (d.sw / canvasW) + 100 * (d.sw / canvasW) ≤ d.sw := by
    have he : (canvasW - 100) / 2 * (d.sw / canvasW) + 100 * (d.sw / canvasW)
        = (canvasW + 100) / 2 * (d.sw / canvasW) := by ring
    rw [he]
    calc (canvasW + 100) / 2 * (d.sw / canvasW)
        ≤ canvasW * (d.sw / canvasW) :=
          mul_le_mul_of_nonneg_right (by linarith) hsX
      _ = d.sw := hmX
  have keyY : (canvasH - 40) / 2 * (d.sh / canvasH) + 40 * (d.sh / canvasH) ≤ d.sh := by
    have he : (canvasH - 40) / 2 * (d.sh / canvasH) + 40 * (d.sh / canvasH)
        = (canvasH + 40) / 2 * (d.sh / canvasH) := by ring
    rw [he]
    calc (canvasH + 40) / 2 * (d.sh / canvasH)
        ≤ canvasH * (d.sh / canvasH) :=
          mul_le_mul_of_nonneg_right (by linarith) hsY
      _ = d.sh := hmY
  exact ⟨by linarith, by linarith, by linarith, by linarith⟩

/-- Witness for C9 at the concrete input (640, 480, 320, 240). -/
theorem c9_ocrCrop_within_bounds_witness :
    0 ≤ (computeOCRCrop 640 480 320 240).sx ∧
    0 ≤ (computeOCRCrop 640 480 320 240).sy ∧
    (computeOCRCrop 640 480 320 240).sx
      + (computeOCRCrop 640 480 320 240).sw ≤ 640 ∧
    (computeOCRCrop 640 480 320 240).sy
      + (computeOCRCrop 640 480 320 240).sh ≤ 480 :=
  c9_ocrCrop_within_bounds 640 480 320 240 (by norm_num) (by norm_num)
    (by norm_num) (by norm_num)

/-! ### Catalog-matcher lemmas -/

/-- The first-match characterization of `List.find?`: it returns `some e`
exactly when the list splits as `l1 ++ e :: l2` with the predicate false on
every element of `l1` and true on `e`. -/
theorem find?_first_iff {α : Type} (p : α → Bool) (l : List α) (e : α) :
    l.find? p = some e ↔
      ∃ l1 l2, l = l1 ++ e :: l2 ∧ p e = true ∧ ∀ x ∈ l1, p x = false := by
  induction l with
  | nil => simp
  | cons a t ih =>
    by_cases ha : p a = true
    · rw [List.find?_cons_of_pos _ ha]
      constructor
      · intro h
        obtain rfl : a = e := by injection h
        exact ⟨[], t, rfl, ha, by simp⟩
      · rintro ⟨l1, l2, heq, hpe, hall⟩
        cases l1 with
        | nil =>
          simp only [List.nil_append] at heq
          injection heq with h1 h2
          rw [h1]
        | cons b l1' =>
          rw [List.cons_append] at heq
          injection heq with h1 h2
          subst h1
          have hfa := hall a (by simp)
          simp [hfa] at ha
    · rw [List.find?_cons_of_neg _ ha, ih]
      constructor
      · rintro ⟨l1, l2, heq, hpe, hall⟩
        refine ⟨a :: l1, l2, by rw [heq, List.cons_append], hpe, ?_⟩
        intro x hx
        rcases List.mem_cons.mp hx with hx' | hx'
        · rw [hx']
          exact Bool.eq_false_iff.mpr ha
        · exact hall x hx'
      · rintro ⟨l1, l2, heq, hpe, hall⟩
        cases l1 with
        | nil =>
          simp only [List.nil_append] at heq
          injection heq with h1 h2
          subst h1
          exact absurd hpe ha
        | cons b l1' =>
          rw [List.cons_append] at heq
          injection heq with h1 h2
          subst h2
          exact ⟨l1', l2, rfl, hpe, fun x hx => hall x (List.mem_cons_of_mem _ hx)⟩

/-- The entry `e` is the first match of the catalog for the extracted code
part `pfx`: the catalog splits before `e`, `pfx` starts with the `Number` of
`e`, and no earlier entry has that property. -/
def firstPrefixMatch (pfx : List Char) (catalog : List HotWheelsEntry)
    (e : HotWheelsEntry) : Prop :=
  ∃ l1 l2, catalog = l1 ++ e :: l2 ∧
    e.Number.toList.isPrefixOf pfx = true ∧
    ∀ x ∈ l1, x.Number.toList.isPrefixOf pfx = false

/-- C2: resolution rejects text whose trimmed form fails the structural
pattern, otherwise returns exactly the first catalog entry in load order whose
`Number` is a prefix of the part before the first hyphen (and `none` when no
entry qualifies); concretely, `"AB12-XY99"` matches a leading catalog entry
with `Number = "AB12"`, while lowercase text and too-short segments match
nothing. -/
theorem c2_resolve_characterization (catalog : List HotWheelsEntry)
    (rawText : String) :
    (codeRegexTest (String.mk (jsTrim rawText.toList)) = false →
      resolve rawText catalog = none)
  ∧ (codeRegexTest (String.mk (jsTrim rawText.toList)) = true →
      ∀ e, resolve rawText catalog = some e ↔
        firstPrefixMatch ((jsSplit '-' (jsTrim rawText.toList)).headD [])
          catalog e)
  ∧ ((∀ x ∈ catalog,
        x.Number.toList.isPrefixOf
          ((jsSplit '-' (jsTrim rawText.toList)).headD []) = false) →
      resolve rawText catalog = none)
  ∧ (∀ nm yr cl rest,
      resolve "AB12-XY99" (⟨"AB12", nm, yr, cl⟩ :: rest)
        = some ⟨"AB12", nm, yr, cl⟩)
  ∧ resolve "ab12-xy99" catalog = none
  ∧ resolve "A1-B2" catalog = none := by
  refine ⟨?_, ?_, ?_, ?_, ?_, ?_⟩
  · intro hregex
    simp only [resolve, hregex, Bool.false_eq_true, if_false]
  · intro hregex e
    simp only [resolve]
    rw [if_pos hregex]
    exact find?_first_iff _ catalog e
  · intro hnone
    simp only [resolve]
    by_cases hregex : codeRegexTest (String.mk (jsTrim rawText.toList)) = true
    · rw [if_pos hregex]
      rw [List.find?_eq_none]
      intro x hx
      rw [hnone x hx]
      exact Bool.false_ne_true
    · rw [if_neg hregex]
  · intro nm yr cl rest
    simp only [resolve]
    rw [if_pos (by decide)]
    have hp : ("AB12" : String).toList.isPrefixOf
        ((jsSplit '-' (jsTrim "AB12-XY99".toList)).headD []) = true := by decide
    exact List.find?_cons_of_pos _ hp
  · simp only [resolve]
    rw [if_neg]
    simp only [Bool.not_eq_true]
    decide
  · simp only [resolve]
    rw [if_neg]
    simp only [Bool.not_eq_true]
    decide

/-- Witness for C2: a failing text resolves to nothing and the concrete
example from the spec resolves to the leading entry. -/
theorem c2_resolve_characterization_witness :
    resolve "zz" [] = none ∧
    resolve "AB12-XY99"
        [{ Number := "AB12", Name := "n", Year := "y", Color := "c" }]
      = some { Number := "AB12", Name := "n", Year := "y", Color := "c" } :=
  ⟨(c2_resolve_characterization [] "zz").1 (by decide),
   (c2_resolve_characterization
      [{ Number := "AB12", Name := "n", Year := "y", Color := "c" }]
      "AB12-XY99").2.2.2.1 "n" "y" "c" []⟩

/-- The empty list is a prefix of every list, by cases on the other list. -/
theorem nil_isPrefixOf_eq_true {α : Type} [BEq α] (l : List α) :
    List.isPrefixOf [] l = true := by
  cases l <;> rfl

/-- C10: a catalog entry with an empty `Number` makes the prefix test
vacuously true, so any text passing structural validation resolves to some
entry (the lookup can no longer return `none`). -/
theorem c10_empty_number_always_matches (catalog : List HotWheelsEntry)
    (e : HotWheelsEntry) (he : e ∈ catalog) (hnum : e.Number = "")
    (rawText : String)
    (hvalid : codeRegexTest (String.mk (jsTrim rawText.toList)) = true) :
    (resolve rawText catalog).isSome = true := by
  simp only [resolve]
  rw [if_pos hvalid]
  rw [List.find?_isSome]
  refine ⟨e, he, ?_⟩
  rw [hnum]
  have h0 : ("" : String).toList = [] := rfl
  rw [h0]
  exact nil_isPrefixOf_eq_true _

/-- Witness for C10: a singleton catalog with an empty `Number` resolves any
structurally valid text. -/
theorem c10_empty_number_always_matches_witness :
    (resolve "AB12-XY99"
        [{ Number := "", Name := "n", Year := "y", Color := "c" }]).isSome
      = true :=
  c10_empty_number_always_matches
    [{ Number := "", Name := "n", Year := "y", Color := "c" }]
    { Number := "", Name := "n", Year := "y", Color := "c" }
    (by simp) rfl "AB12-XY99" (by decide)

/-! ### Throttle and tracker lemmas -/

/-- C4: the gate permits exactly when `now - last ≥ interval` (equality
permits); the stored timestamp becomes `now` exactly on a permitted attempt
and is non-decreasing under non-decreasing clocks, also through the full
`maybeRunOCR` step; the two concrete spec examples evaluate as stated. -/
theorem c4_gate_behavior (now last interval : ℚ) :
    (shouldRun now last interval = true ↔ interval ≤ now - last)
  ∧ (shouldRun now last interval = true → (gateStep last now interval).2 = now)
  ∧ (shouldRun now last interval = false → (gateStep last now interval).2 = last)
  ∧ (last ≤ now → last ≤ (gateStep last now interval).2)
  ∧ (∀ (st : OcrState) (r : Except Unit String) (catalog : List HotWheelsEntry),
      (maybeRunOCR st now r catalog).lastOcrTime =
        if shouldRun now st.lastOcrTime OCR_INTERVAL then now else st.lastOcrTime)
  ∧ shouldRun 1000 300 750 = false
  ∧ shouldRun 1050 300 750 = true := by
  refine ⟨?_, ?_, ?_, ?_, ?_, ?_, ?_⟩
  · simp [shouldRun, not_lt]
  · intro h
    simp [gateStep, h]
  · intro h
    simp [gateStep, h]
  · intro h
    by_cases hsr : shouldRun now last interval = true
    · simp [gateStep, hsr]
      exact h
    · simp [gateStep, hsr]
  · intro st r catalog
    by_cases hsr : shouldRun now st.lastOcrTime OCR_INTERVAL = true
    · cases r <;> simp [maybeRunOCR, hsr]
    · cases r <;> simp [maybeRunOCR, hsr]
  · norm_num [shouldRun]
  · norm_num [shouldRun]

/-- Witness for C4 at the concrete gate inputs of the spec examples. -/
theorem c4_gate_behavior_witness :
    shouldRun 1000 300 750 = false ∧ shouldRun 1050 300 750 = true ∧
    ((750 : ℚ) ≤ 1050 - 300 → (gateStep 300 1050 750).2 = 1050) :=
  ⟨(c4_gate_behavior 1000 300 750).2.2.2.2.2.1,
   (c4_gate_behavior 1050 300 750).2.2.2.2.2.2,
   fun h => (c4_gate_behavior 1050 300 750).2.1
     ((c4_gate_behavior 1050 300 750).1.mpr h)⟩

/-- C5: the tracker replaces the current entry and emits exactly when a new
entry is present whose `Number` differs from the current one (or none is
current); repeating the same entry emits nothing, and an absent entry leaves
the state untouched. -/
theorem c5_tracker_behavior (cur newEntry : Option HotWheelsEntry) :
    (newEntry = none → update cur newEntry = (cur, false))
  ∧ (∀ m, newEntry = some m → cur = none → update cur newEntry = (some m, true))
  ∧ (∀ m c, newEntry = some m → cur = some c → m.Number ≠ c.Number →
      update cur newEntry = (some m, true))
  ∧ (∀ m c, newEntry = some m → cur = some c → m.Number = c.Number →
      update cur newEntry = (cur, false))
  ∧ (∀ e : HotWheelsEntry, (update (update cur (some e)).1 (some e)).2 = false)
  ∧ (∀ e : HotWheelsEntry, update (some e) none = (some e, false)) := by
  refine ⟨?_, ?_, ?_, ?_, ?_, ?_⟩
  · intro h
    subst h
    rfl
  · intro m hn hc
    subst hn
    subst hc
    rfl
  · intro m c hn hc hne
    subst hn
    subst hc
    simp [update, hne]
  · intro m c hn hc heq
    subst hn
    subst hc
    simp [update, heq]
  · intro e
    cases cur with
    | none => simp [update]
    | some c =>
      by_cases hne : e.Number ≠ c.Number
      · simp [update, hne]
      · simp [update, hne]
  · intro e
    rfl

/-- Witness for C5: updating twice with the same entry emits only once. -/
theorem c5_tracker_behavior_witness :
    update (none : Option HotWheelsEntry)
        (some { Number := "AB12", Name := "n", Year := "y", Color := "c" })
      = (some { Number := "AB12", Name := "n", Year := "y", Color := "c" }, true) ∧
    (update
        (update none
          (some { Number := "AB12", Name := "n", Year := "y", Color := "c" })).1
        (some { Number := "AB12", Name := "n", Year := "y", Color := "c" })).2
      = false :=
  ⟨(c5_tracker_behavior none
      (some { Number := "AB12", Name := "n", Year := "y", Color := "c" })).2.1
      { Number := "AB12", Name := "n", Year := "y", Color := "c" } rfl rfl,
   (c5_tracker_behavior none
      (some { Number := "AB12", Name := "n", Year := "y", Color := "c" })).2.2.2.2.1
      { Number := "AB12", Name := "n", Year := "y", Color := "c" }⟩

/-- C8: on a permitted attempt whose recognition call fails, the current
entry is untouched, the timestamp keeps the value it advanced to when the
attempt started, and the failure is handled exactly like structurally
invalid (no-match) text. -/
theorem c8_failure_isolation (st : OcrState) (now : ℚ)
    (catalog : List HotWheelsEntry)
    (hgate : shouldRun now st.lastOcrTime OCR_INTERVAL = true) :
    (maybeRunOCR st now (.error ()) catalog).currentEntry = st.currentEntry
  ∧ (maybeRunOCR st now (.error ()) catalog).lastOcrTime = now
  ∧ ∀ raw : String, codeRegexTest (String.mk (jsTrim raw.toList)) = false →
      maybeRunOCR st now (.error ()) catalog = maybeRunOCR st now (.ok raw) catalog := by
  refine ⟨?_, ?_, ?_⟩
  · simp [maybeRunOCR, hgate]
  · simp [maybeRunOCR, hgate]
  · intro raw hraw
    have hres : resolve raw catalog = none := by
      simp only [resolve, hraw, Bool.false_eq_true, if_false]
    simp [maybeRunOCR, hgate, hres, update]

/-- Witness for C8 at a concrete permitted attempt. -/
theorem c8_failure_isolation_witness :
    (maybeRunOCR ⟨300, none⟩ 1050 (.error ()) []).currentEntry = none
  ∧ (maybeRunOCR ⟨300, none⟩ 1050 (.error ()) []).lastOcrTime = 1050
  ∧ maybeRunOCR ⟨300, none⟩ 1050 (.error ()) []
      = maybeRunOCR ⟨300, none⟩ 1050 (.ok "zz") [] :=
  ⟨(c8_failure_isolation ⟨300, none⟩ 1050 [] (by norm_num [shouldRun, OCR_INTERVAL])).1,
   (c8_failure_isolation ⟨300, none⟩ 1050 [] (by norm_num [shouldRun, OCR_INTERVAL])).2.1,
   (c8_failure_isolation ⟨300, none⟩ 1050 [] (by norm_num [shouldRun, OCR_INTERVAL])).2.2
     "zz" (by decide)⟩

end HotwheelsId
